import Mathlib

/-!
Shallow embedding of the command-block history engine found in
src/terminal-apps/src/blocks/ (block.rs, manager.rs, storage.rs).

Modelling conventions:
- Rust String is Lean String; substring containment (str::contains) is
  char-list infix containment.
- usize / u64 are Nat; i32 is Int.  Where the source performs usize
  subtraction that can underflow, the release-mode wrapping semantics is
  modelled explicitly (see usizeSub1); debug builds would panic at the same
  spot, so either way the subtraction underflows for a zero length.
- uuid::Uuid::new_v4 and SystemTime::now are external inputs; Block.new
  takes the generated id and timestamp as parameters.
- VecDeque is a List with the front at the head: pop_front is List.tail
  (a no-op on the empty list, as in Rust where pop_front returns None),
  push_back appends on the right.
- Methods taking &mut self become state-passing functions returning the
  updated value (paired with the Rust return value where there is one).
-/

/-- BlockStatus from block.rs: Running | Success | Failed(String) | Cancelled. -/
inductive BlockStatus where
  | Running : BlockStatus
  | Success : BlockStatus
  | Failed : String → BlockStatus
  | Cancelled : BlockStatus
deriving DecidableEq, Repr

/-- BlockOutput from block.rs: stdout, stderr, optional exit code (i32). -/
structure BlockOutput where
  stdout : String
  stderr : String
  exit_code : Option Int
deriving DecidableEq, Repr

/-- BlockMetadata from block.rs. -/
structure BlockMetadata where
  duration_ms : Nat
  timestamp : Nat
  directory : String
  git_branch : Option String
  bookmarked : Bool
deriving DecidableEq, Repr

/-- Block from block.rs. -/
structure Block where
  id : String
  command : String
  output : BlockOutput
  status : BlockStatus
  metadata : BlockMetadata
deriving DecidableEq, Repr

namespace Block

/-- Block::new from block.rs.  The uuid and the wall clock are external
collaborators, so the generated id and the captured timestamp enter as
parameters; everything else mirrors the constructor field by field. -/
def new (command directory : String) (id : String) (timestamp : Nat) : Block :=
  { id := id
    command := command
    output := { stdout := "", stderr := "", exit_code := none }
    status := BlockStatus.Running
    metadata :=
      { duration_ms := 0
        timestamp := timestamp
        directory := directory
        git_branch := none
        bookmarked := false } }

/-- Block::set_output from block.rs: unconditionally stores the new output and
recomputes status from the exit code ("Exit code: {n}" on failure). -/
def set_output (b : Block) (stdout stderr : String) (exit_code : Int) : Block :=
  { b with
    output := { stdout := stdout, stderr := stderr, exit_code := some exit_code }
    status :=
      if exit_code = 0 then BlockStatus.Success
      else BlockStatus.Failed ("Exit code: " ++ toString exit_code) }

/-- Block::get_full_output from block.rs: starts from stdout; when stderr is
non-empty, pushes a newline first only when the accumulated result (stdout) is
itself non-empty, then pushes stderr. -/
def get_full_output (b : Block) : String :=
  let result := b.output.stdout
  if !b.output.stderr.isEmpty then
    (if !result.isEmpty then result ++ "\n" else result) ++ b.output.stderr
  else
    result

/-- Block::toggle_bookmark from block.rs. -/
def toggle_bookmark (b : Block) : Block :=
  { b with metadata := { b.metadata with bookmarked := !b.metadata.bookmarked } }

/-- Block::is_bookmarked from block.rs. -/
def is_bookmarked (b : Block) : Bool :=
  b.metadata.bookmarked

end Block

/-- Rust str::contains: case-sensitive substring containment, modelled as
infix containment of the char lists. -/
def strContains (s pat : String) : Bool :=
  decide (pat.data <:+: s.data)

/-- BlockHistory from manager.rs: a VecDeque of blocks (front = oldest at the
list head), the max_size bound and the current_index navigation cursor. -/
structure BlockHistory where
  blocks : List Block
  max_size : Nat
  current_index : Nat
deriving DecidableEq, Repr

/-- Release-mode wrapping usize subtraction of 1, as performed by
self.blocks.len() - 1 in navigate_down: 0 - 1 wraps to 2^64 - 1
(debug builds panic on the same underflow). -/
def usizeSub1 (n : Nat) : Nat :=
  (n + (2 ^ 64 - 1)) % 2 ^ 64

namespace BlockHistory

/-- BlockHistory::new from manager.rs. -/
def new (max_size : Nat) : BlockHistory :=
  { blocks := [], max_size := max_size, current_index := 0 }

/-- BlockHistory::add_block from manager.rs: when len >= max_size, pop the
front (oldest) block, leaving current_index untouched; otherwise set
current_index to the old length; then push the block at the back. -/
def add_block (h : BlockHistory) (b : Block) : BlockHistory :=
  if h.blocks.length ≥ h.max_size then
    { h with blocks := h.blocks.tail ++ [b] }
  else
    { h with current_index := h.blocks.length, blocks := h.blocks ++ [b] }

/-- BlockHistory::get_blocks from manager.rs. -/
def get_blocks (h : BlockHistory) : List Block :=
  h.blocks

/-- BlockHistory::get_block from manager.rs: first block with the given id. -/
def get_block (h : BlockHistory) (id : String) : Option Block :=
  h.blocks.find? (fun b => b.id = id)

/-- BlockHistory::get_by_index from manager.rs: bounds-checked access. -/
def get_by_index (h : BlockHistory) (index : Nat) : Option Block :=
  h.blocks.get? index

/-- BlockHistory::navigate_up from manager.rs: when current_index > 0,
decrement it and return the block there; otherwise return None. -/
def navigate_up (h : BlockHistory) : Option Block × BlockHistory :=
  if h.current_index > 0 then
    let h' := { h with current_index := h.current_index - 1 }
    (h'.blocks.get? h'.current_index, h')
  else
    (none, h)

/-- BlockHistory::navigate_down from manager.rs: when
current_index < self.blocks.len() - 1 (usize arithmetic: the bound wraps when
the history is empty), increment it and return the block there; otherwise
return None. -/
def navigate_down (h : BlockHistory) : Option Block × BlockHistory :=
  if h.current_index < usizeSub1 h.blocks.length then
    let h' := { h with current_index := h.current_index + 1 }
    (h'.blocks.get? h'.current_index, h')
  else
    (none, h)

/-- BlockHistory::search_by_command from manager.rs: filter by substring
containment of the query in the command, preserving order. -/
def search_by_command (h : BlockHistory) (query : String) : List Block :=
  h.blocks.filter (fun b => strContains b.command query)

/-- BlockHistory::get_bookmarked from manager.rs. -/
def get_bookmarked (h : BlockHistory) : List Block :=
  h.blocks.filter (fun b => b.is_bookmarked)

/-- BlockHistory::clear from manager.rs. -/
def clear (h : BlockHistory) : BlockHistory :=
  { h with blocks := [], current_index := 0 }

/-- BlockHistory::len from manager.rs. -/
def len (h : BlockHistory) : Nat :=
  h.blocks.length

/-- BlockHistory::is_empty from manager.rs. -/
def is_empty (h : BlockHistory) : Bool :=
  h.blocks.isEmpty

end BlockHistory

/-- Toggle the bookmark of the first block carrying the given id, as
iter_mut().find() followed by toggle_bookmark does; none when no block
matches. -/
def toggleFirst : List Block → String → Option (List Block)
  | [], _ => none
  | b :: bs, id =>
    if b.id = id then some (b.toggle_bookmark :: bs)
    else (toggleFirst bs id).map (fun bs' => b :: bs')

/-- BlockManager from manager.rs: a facade owning one BlockHistory. -/
structure BlockManager where
  history : BlockHistory
deriving DecidableEq, Repr

namespace BlockManager

/-- BlockManager::new from manager.rs. -/
def new (max_history : Nat) : BlockManager :=
  { history := BlockHistory.new max_history }

/-- BlockManager::add_block from manager.rs. -/
def add_block (m : BlockManager) (b : Block) : BlockManager :=
  { m with history := m.history.add_block b }

/-- BlockManager::get_blocks from manager.rs. -/
def get_blocks (m : BlockManager) : List Block :=
  m.history.get_blocks

/-- BlockManager::get_block from manager.rs. -/
def get_block (m : BlockManager) (id : String) : Option Block :=
  m.history.get_block id

/-- BlockManager::search from manager.rs. -/
def search (m : BlockManager) (query : String) : List Block :=
  m.history.search_by_command query

/-- BlockManager::get_bookmarked from manager.rs. -/
def get_bookmarked (m : BlockManager) : List Block :=
  m.history.get_bookmarked

/-- BlockManager::toggle_bookmark from manager.rs: get_block_mut(id) mutates
the first block with that id in place; a missing id yields
Err("Block not found") and no mutation. -/
def toggle_bookmark (m : BlockManager) (id : String) :
    Except String Unit × BlockManager :=
  match toggleFirst m.history.blocks id with
  | none => (Except.error "Block not found", m)
  | some bs => (Except.ok (), { m with history := { m.history with blocks := bs } })

end BlockManager

/-!
JSON model for storage.rs.  save_as_json serializes the block slice with
serde_json and writes the text to a file; load_blocks reads the file and
deserializes.  The string printing / parsing layer of serde_json and the file
system are external libraries (serde_json guarantees parse after print is the
identity), so the embedding works at the level of the JSON value written:
the encoders below spell out the serde-derive data format of the types in
block.rs (structs as objects keyed by field name, Option as null or the
value, unit enum variants as their name string, the newtype variant
Failed(String) as a one-field object), and the decoders the corresponding
deserialization.
-/

/-- JSON values, as produced by the serde Serialize derives of block.rs. -/
inductive Json where
  | null : Json
  | bool : Bool → Json
  | num : Int → Json
  | str : String → Json
  | arr : List Json → Json
  | obj : List (String × Json) → Json

/-- Serde encoding of BlockStatus: unit variants as their name, the newtype
variant Failed(reason) as the object with the single field "Failed". -/
def encodeStatus : BlockStatus → Json
  | BlockStatus.Running => Json.str "Running"
  | BlockStatus.Success => Json.str "Success"
  | BlockStatus.Failed r => Json.obj [("Failed", Json.str r)]
  | BlockStatus.Cancelled => Json.str "Cancelled"

/-- Serde encoding of Option String: None as null, Some s as the string. -/
def encodeOptStr : Option String → Json
  | none => Json.null
  | some s => Json.str s

/-- Serde encoding of Option i32: None as null, Some n as the number. -/
def encodeOptInt : Option Int → Json
  | none => Json.null
  | some n => Json.num n

/-- Serde encoding of BlockOutput, field by field. -/
def encodeOutput (o : BlockOutput) : Json :=
  Json.obj
    [("stdout", Json.str o.stdout),
     ("stderr", Json.str o.stderr),
     ("exit_code", encodeOptInt o.exit_code)]

/-- Serde encoding of BlockMetadata, field by field. -/
def encodeMetadata (m : BlockMetadata) : Json :=
  Json.obj
    [("duration_ms", Json.num (m.duration_ms : Int)),
     ("timestamp", Json.num (m.timestamp : Int)),
     ("directory", Json.str m.directory),
     ("git_branch", encodeOptStr m.git_branch),
     ("bookmarked", Json.bool m.bookmarked)]

/-- Serde encoding of a Block, field by field. -/
def encodeBlock (b : Block) : Json :=
  Json.obj
    [("id", Json.str b.id),
     ("command", Json.str b.command),
     ("output", encodeOutput b.output),
     ("status", encodeStatus b.status),
     ("metadata", encodeMetadata b.metadata)]

/-- Serde encoding of a slice of blocks: a JSON array. -/
def encodeBlocks (bs : List Block) : Json :=
  Json.arr (bs.map encodeBlock)

/-- Field lookup in a JSON object, as serde-derive deserialization performs. -/
def getField (fields : List (String × Json)) (k : String) : Except String Json :=
  match fields.find? (fun p => p.1 = k) with
  | some p => Except.ok p.2
  | none => Except.error ("missing field " ++ k)

/-- Decode a JSON string. -/
def decodeStr : Json → Except String String
  | Json.str s => Except.ok s
  | _ => Except.error "expected string"

/-- Decode an unsigned integer (u64 fields reject negative numbers). -/
def decodeNat : Json → Except String Nat
  | Json.num n => if n < 0 then Except.error "expected unsigned" else Except.ok n.toNat
  | _ => Except.error "expected number"

/-- Decode a boolean. -/
def decodeBool : Json → Except String Bool
  | Json.bool b => Except.ok b
  | _ => Except.error "expected bool"

/-- Decode an optional i32: null is None, a number is Some. -/
def decodeOptInt : Json → Except String (Option Int)
  | Json.null => Except.ok none
  | Json.num n => Except.ok (some n)
  | _ => Except.error "expected number or null"

/-- Decode an optional string: null is None, a string is Some. -/
def decodeOptStr : Json → Except String (Option String)
  | Json.null => Except.ok none
  | Json.str s => Except.ok (some s)
  | _ => Except.error "expected string or null"

/-- Decode a BlockStatus from its serde encoding. -/
def decodeStatus : Json → Except String BlockStatus
  | Json.str "Running" => Except.ok BlockStatus.Running
  | Json.str "Success" => Except.ok BlockStatus.Success
  | Json.str "Cancelled" => Except.ok BlockStatus.Cancelled
  | Json.obj fields => do
      let r ← getField fields "Failed" >>= decodeStr
      Except.ok (BlockStatus.Failed r)
  | _ => Except.error "unknown status"

/-- Decode a BlockOutput from its serde encoding. -/
def decodeOutput : Json → Except String BlockOutput
  | Json.obj fields => do
      let stdout ← getField fields "stdout" >>= decodeStr
      let stderr ← getField fields "stderr" >>= decodeStr
      let exit_code ← getField fields "exit_code" >>= decodeOptInt
      Except.ok { stdout := stdout, stderr := stderr, exit_code := exit_code }
  | _ => Except.error "expected object"

/-- Decode a BlockMetadata from its serde encoding. -/
def decodeMetadata : Json → Except String BlockMetadata
  | Json.obj fields => do
      let duration_ms ← getField fields "duration_ms" >>= decodeNat
      let timestamp ← getField fields "timestamp" >>= decodeNat
      let directory ← getField fields "directory" >>= decodeStr
      let git_branch ← getField fields "git_branch" >>= decodeOptStr
      let bookmarked ← getField fields "bookmarked" >>= decodeBool
      Except.ok
        { duration_ms := duration_ms, timestamp := timestamp,
          directory := directory, git_branch := git_branch,
          bookmarked := bookmarked }
  | _ => Except.error "expected object"

/-- Decode a Block from its serde encoding. -/
def decodeBlock : Json → Except String Block
  | Json.obj fields => do
      let id ← getField fields "id" >>= decodeStr
      let command ← getField fields "command" >>= decodeStr
      let output ← getField fields "output" >>= decodeOutput
      let status ← getField fields "status" >>= decodeStatus
      let metadata ← getField fields "metadata" >>= decodeMetadata
      Except.ok
        { id := id, command := command, output := output,
          status := status, metadata := metadata }
  | _ => Except.error "expected object"

/-- Decode a list of blocks from a JSON array. -/
def decodeBlocks : Json → Except String (List Block)
  | Json.arr xs => xs.mapM decodeBlock
  | _ => Except.error "expected array"

namespace BlockStorage

/-- BlockStorage::save_as_json from storage.rs: the JSON content written to
the file (serialization of these types never fails; the file write is the
external fs collaborator). -/
def save_as_json (blocks : List Block) : Json :=
  encodeBlocks blocks

/-- BlockStorage::load_blocks from storage.rs, applied to the content of an
existing readable file: deserializes the JSON content (a missing or
unreadable file errors out before this point). -/
def load_blocks (content : Json) : Except String (List Block) :=
  decodeBlocks content

end BlockStorage

/-!
Reachability predicates and concrete sample values used by the theorems.
-/

/-- Blocks reachable through the lifecycle of block.rs: created by the external
executor, finalized at most once (set_output applies only while the status is
still Running), and bookmark-toggled any number of times, in any order. -/
inductive BlockReachable : Block → Prop
  | created (command directory id : String) (timestamp : Nat) :
      BlockReachable (Block.new command directory id timestamp)
  | toggled {b : Block} :
      BlockReachable b → BlockReachable b.toggle_bookmark
  | finalized {b : Block} (stdout stderr : String) (exit_code : Int) :
      BlockReachable b → b.status = BlockStatus.Running →
      BlockReachable (b.set_output stdout stderr exit_code)

/-- Histories reachable from BlockHistory::new(m) through add_block,
navigate_up and navigate_down (issued only on non-empty histories, as the
claim requires) and clear. -/
inductive HistReachable (m : Nat) : BlockHistory → Prop
  | init : HistReachable m (BlockHistory.new m)
  | add {h : BlockHistory} (b : Block) :
      HistReachable m h → HistReachable m (h.add_block b)
  | nav_up {h : BlockHistory} :
      HistReachable m h → h.blocks ≠ [] → HistReachable m (h.navigate_up).2
  | nav_down {h : BlockHistory} :
      HistReachable m h → h.blocks ≠ [] → HistReachable m (h.navigate_down).2
  | cleared {h : BlockHistory} :
      HistReachable m h → HistReachable m h.clear

/-- The cursor invariant: the history never outgrows its bound, the cursor is
zero on an empty history and strictly below the length on a non-empty one. -/
def cursorInv (h : BlockHistory) : Prop :=
  h.blocks.length ≤ h.max_size ∧
  (h.blocks.length = 0 → h.current_index = 0) ∧
  (0 < h.blocks.length → h.current_index < h.blocks.length)

/-- Sample block A of the spec scenario. -/
def blockA : Block := Block.new "ls -la" "/tmp" "id-a" 10

/-- Sample block B of the spec scenario. -/
def blockB : Block := Block.new "git status" "/tmp" "id-b" 11

/-- Sample block C of the spec scenario. -/
def blockC : Block := Block.new "cargo build" "/tmp" "id-c" 12

/-- History of capacity 2 holding blocks A and B (cursor on B). -/
def hist2 : BlockHistory :=
  [blockA, blockB].foldl BlockHistory.add_block (BlockHistory.new 2)

/-- History of capacity 2 after additionally adding block C (A evicted). -/
def hist3 : BlockHistory :=
  [blockA, blockB, blockC].foldl BlockHistory.add_block (BlockHistory.new 2)

/-- A manager holding the single block A. -/
def managerOne : BlockManager := (BlockManager.new 4).add_block blockA

/-- A block finalized with exit code 101, stdout and stderr both non-empty. -/
def blockFail101 : Block :=
  (Block.new "cargo test" "/tmp" "id-101" 5).set_output "out" "err" 101

/-- A block finalized with empty stdout and non-empty stderr. -/
def blockStderrOnly : Block :=
  (Block.new "make" "/src" "id-e" 0).set_output "" "boom" 1

/-- A block finalized once, successfully. -/
def blockFinalizedOnce : Block :=
  (Block.new "true" "/" "id-f" 0).set_output "first" "" 0

/-- The same block after a second set_output call. -/
def blockFinalizedTwice : Block :=
  blockFinalizedOnce.set_output "second" "oops" 1

/-!
Theorems.
-/

/-- C5: for every Block reachable via create, at most one finalize and any
number of bookmark toggles, output.exit_code is present iff the status is
Success or Failed; exit code 0 forces Success; a nonzero exit code forces
Failed with the reason string embedding the numeric code. -/
theorem exit_code_status_invariant (b : Block) (hb : BlockReachable b) :
    ((∃ ec, b.output.exit_code = some ec) ↔
      b.status = BlockStatus.Success ∨ ∃ r, b.status = BlockStatus.Failed r) ∧
    (b.output.exit_code = some 0 → b.status = BlockStatus.Success) ∧
    (∀ ec : Int, b.output.exit_code = some ec → ec ≠ 0 →
      b.status = BlockStatus.Failed ("Exit code: " ++ toString ec)) := by
  induction hb with
  | created command directory id timestamp =>
      refine ⟨?_, ?_, ?_⟩ <;> simp [Block.new]
  | toggled hb ih =>
      simpa [Block.toggle_bookmark] using ih
  | finalized stdout stderr exit_code hb hrun ih =>
      by_cases hec : exit_code = 0 <;>
        simp [Block.set_output, hec]

/-- Witness for C5 at a concrete finalized block with exit code 101. -/
theorem exit_code_status_invariant_witness :
    blockFail101.output.exit_code = some 101 ∧
    blockFail101.status = BlockStatus.Failed "Exit code: 101" := by
  have hreach : BlockReachable blockFail101 :=
    BlockReachable.finalized "out" "err" 101
      (BlockReachable.created "cargo test" "/tmp" "id-101" 5) rfl
  have h := exit_code_status_invariant blockFail101 hreach
  exact ⟨rfl, h.2.2 101 rfl (by decide)⟩

/-- C8 counterexample: a block with empty stdout and non-empty stderr; the
claim demands stdout, a newline, then stderr, but get_full_output emits no
separating newline when stdout is empty. -/
theorem full_output_missing_separator :
    blockStderrOnly.output.stderr ≠ "" ∧
    blockStderrOnly.get_full_output = "boom" ∧
    blockStderrOnly.get_full_output ≠
      blockStderrOnly.output.stdout ++ "\n" ++ blockStderrOnly.output.stderr := by
  refine ⟨by decide, rfl, by decide⟩

/-- A non-empty string has isEmpty false. -/
theorem string_isEmpty_false {s : String} (h : s ≠ "") : s.isEmpty = false := by
  rw [Bool.eq_false_iff]
  intro hc
  exact h ((String.isEmpty_iff s).mp hc)

/-- The empty string has isEmpty true. -/
theorem string_isEmpty_true {s : String} (h : s = "") : s.isEmpty = true :=
  (String.isEmpty_iff s).mpr h

/-- C8 amended: get_full_output is stdout when stderr is empty, stderr alone
when stdout is empty, and stdout, a separating newline, then stderr when both
are non-empty (the separator appears only when both streams are non-empty). -/
theorem get_full_output_characterization (b : Block) :
    b.get_full_output =
      if b.output.stderr = "" then b.output.stdout
      else if b.output.stdout = "" then b.output.stderr
      else b.output.stdout ++ "\n" ++ b.output.stderr := by
  unfold Block.get_full_output
  have he : ("" : String).isEmpty = true := rfl
  by_cases h1 : b.output.stderr = ""
  · simp [string_isEmpty_true h1, h1, he]
  · by_cases h2 : b.output.stdout = ""
    · simp [string_isEmpty_false h1, string_isEmpty_true h2, h1, h2, he]
    · simp [string_isEmpty_false h1, string_isEmpty_false h2, h1, h2,
        String.append_assoc]

/-- C2 counterexample: a block finalized with exit code 0 (terminal status
Success) accepts a second set_output without any error, which changes both its
status and its recorded exit code. -/
theorem set_output_overwrites_terminal :
    blockFinalizedOnce.status = BlockStatus.Success ∧
    blockFinalizedTwice.status = BlockStatus.Failed "Exit code: 1" ∧
    blockFinalizedTwice.status ≠ blockFinalizedOnce.status ∧
    blockFinalizedTwice.output.exit_code ≠ blockFinalizedOnce.output.exit_code := by
  refine ⟨rfl, rfl, by decide, by decide⟩

/-- C2 amended: set_output is infallible and unconditional; in particular a
second call on an already finalized block overwrites the stored output with
the new values and recomputes the status from the new exit code. -/
theorem set_output_unconditional (b : Block) (s1 e1 : String) (c1 : Int)
    (s2 e2 : String) (c2 : Int) :
    ((b.set_output s1 e1 c1).set_output s2 e2 c2).output
        = { stdout := s2, stderr := e2, exit_code := some c2 } ∧
    (c2 = 0 →
      ((b.set_output s1 e1 c1).set_output s2 e2 c2).status = BlockStatus.Success) ∧
    (c2 ≠ 0 →
      ((b.set_output s1 e1 c1).set_output s2 e2 c2).status
        = BlockStatus.Failed ("Exit code: " ++ toString c2)) := by
  refine ⟨rfl, fun h => ?_, fun h => ?_⟩ <;> simp [Block.set_output, h]

/-- Witness for C2 amended at concrete inputs (second exit code 7). -/
theorem set_output_unconditional_witness :
    (((Block.new "w" "/" "i" 0).set_output "a" "b" 0).set_output "c" "d" 7).status
      = BlockStatus.Failed "Exit code: 7" := by
  have h := set_output_unconditional (Block.new "w" "/" "i" 0) "a" "b" 0 "c" "d" 7
  exact h.2.2 (by decide)

/-- C9: search_by_command returns exactly the blocks of the history whose
command contains the query as a case-sensitive substring (membership iff), as
a sublist of the history, hence in the original oldest-first order. -/
theorem search_by_command_spec (h : BlockHistory) (q : String) :
    (∀ b : Block, b ∈ h.search_by_command q ↔
      b ∈ h.blocks ∧ strContains b.command q = true) ∧
    (h.search_by_command q).Sublist h.blocks := by
  refine ⟨fun b => ?_, List.filter_sublist h.blocks⟩
  simp [BlockHistory.search_by_command, List.mem_filter]

/-- toggleFirst finds nothing when no block carries the id. -/
theorem toggleFirst_eq_none (l : List Block) (id : String)
    (h : ∀ b ∈ l, b.id ≠ id) : toggleFirst l id = none := by
  induction l with
  | nil => rfl
  | cons b bs ih =>
      have hb : b.id ≠ id := h b (List.mem_cons_self b bs)
      have hrest : ∀ b' ∈ bs, b'.id ≠ id := fun b' hb' => h b' (List.mem_cons_of_mem b hb')
      simp [toggleFirst, hb, ih hrest]

/-- toggleFirst replaces the first block carrying the id by its toggled
version and keeps every other entry. -/
theorem toggleFirst_eq_set (l : List Block) (id : String) (i : Nat) (b : Block)
    (hget : l.get? i = some b) (hid : b.id = id)
    (hbefore : ∀ j < i, ∀ b' : Block, l.get? j = some b' → b'.id ≠ id) :
    toggleFirst l id = some (l.set i b.toggle_bookmark) := by
  induction l generalizing i with
  | nil => simp at hget
  | cons hd tl ih =>
      cases i with
      | zero =>
          have : hd = b := by simpa using hget
          subst this
          simp [toggleFirst, hid]
      | succ n =>
          have hhd : hd.id ≠ id := hbefore 0 (Nat.succ_pos n) hd rfl
          have hget' : tl.get? n = some b := by simpa using hget
          have hbefore' : ∀ j < n, ∀ b' : Block, tl.get? j = some b' → b'.id ≠ id :=
            fun j hj b' hb' => hbefore (j + 1) (by omega) b' (by simpa using hb')
          simp [toggleFirst, hhd, ih n hget' hbefore', List.set]

/-- C7: toggle_bookmark on an absent id returns the error "Block not found"
and leaves the manager (hence the whole history) unchanged; on a present id it
returns success and replaces the first block carrying the id by the same block
with its bookmark flag flipped, leaving every other block, the bound and the
cursor untouched. -/
theorem toggle_bookmark_spec (m : BlockManager) (id : String) :
    ((∀ b ∈ m.history.blocks, b.id ≠ id) →
      m.toggle_bookmark id = (Except.error "Block not found", m)) ∧
    (∀ i : Nat, ∀ b : Block, m.history.blocks.get? i = some b → b.id = id →
      (∀ j < i, ∀ b' : Block, m.history.blocks.get? j = some b' → b'.id ≠ id) →
      m.toggle_bookmark id =
        (Except.ok (),
         { m with history := { m.history with
             blocks := m.history.blocks.set i b.toggle_bookmark } })) := by
  constructor
  · intro habs
    simp [BlockManager.toggle_bookmark, toggleFirst_eq_none m.history.blocks id habs]
  · intro i b hget hid hbefore
    simp [BlockManager.toggle_bookmark,
      toggleFirst_eq_set m.history.blocks id i b hget hid hbefore]

/-- Witness for C7: on the one-block manager, toggling an absent id errors and
changes nothing, and toggling the id of block A succeeds and flips its flag. -/
theorem toggle_bookmark_spec_witness :
    managerOne.toggle_bookmark "zz" = (Except.error "Block not found", managerOne) ∧
    managerOne.toggle_bookmark "id-a" =
      (Except.ok (),
       { managerOne with history := { managerOne.history with
           blocks := managerOne.history.blocks.set 0 blockA.toggle_bookmark } }) := by
  constructor
  · exact (toggle_bookmark_spec managerOne "zz").1 (by decide)
  · exact (toggle_bookmark_spec managerOne "id-a").2 0 blockA rfl rfl
      (fun j hj => absurd hj (Nat.not_lt_zero j))

/-- add_block never changes the capacity bound. -/
theorem add_block_max_size (h : BlockHistory) (b : Block) :
    (h.add_block b).max_size = h.max_size := by
  unfold BlockHistory.add_block
  split <;> rfl

/-- Folding add_block over any sequence keeps the capacity bound of the fresh
history. -/
theorem foldl_add_block_max_size (m : Nat) (seq : List Block) :
    (seq.foldl BlockHistory.add_block (BlockHistory.new m)).max_size = m := by
  induction seq using List.reverseRecOn with
  | nil => rfl
  | append_singleton l a ih =>
      rw [List.foldl_append]
      simpa [add_block_max_size] using ih

/-- Folding add_block over any sequence of blocks leaves exactly the most
recent m additions (all of them while fewer than m were added), in their
original relative order. -/
theorem foldl_add_block_blocks (m : Nat) (hm : 1 ≤ m) (seq : List Block) :
    (seq.foldl BlockHistory.add_block (BlockHistory.new m)).blocks
      = seq.drop (seq.length - m) := by
  induction seq using List.reverseRecOn with
  | nil => simp [BlockHistory.new]
  | append_singleton l a ih =>
      have hmax := foldl_add_block_max_size m l
      simp only [List.foldl_append, List.foldl_cons, List.foldl_nil]
      generalize hH : List.foldl BlockHistory.add_block (BlockHistory.new m) l = H at ih hmax
      unfold BlockHistory.add_block
      rw [ih, hmax]
      have hlen : (l.drop (l.length - m)).length = l.length - (l.length - m) := by simp
      by_cases hcase : l.length < m
      · rw [if_neg (by omega)]
        have h1 : l.length - m = 0 := by omega
        have h2 : l.length + 1 - m = 0 := by omega
        simp [h1, h2]
      · rw [if_pos (by omega)]
        rw [List.tail_drop]
        have h3 : l.length - m + 1 = (l ++ [a]).length - m := by simp; omega
        rw [h3, List.drop_append_of_le_length (by simp; omega)]

/-- C1 amended: for every capacity bound of at least 1 and every sequence of
additions, the history length never exceeds the bound and the retained blocks
are exactly the most recent max_size additions in original relative order
(FIFO eviction of the single oldest block). -/
theorem add_block_bounded_fifo (m : Nat) (hm : 1 ≤ m) (seq : List Block) :
    (seq.foldl BlockHistory.add_block (BlockHistory.new m)).blocks
        = seq.drop (seq.length - m) ∧
    (seq.foldl BlockHistory.add_block (BlockHistory.new m)).blocks.length ≤ m := by
  have hb := foldl_add_block_blocks m hm seq
  refine ⟨hb, ?_⟩
  rw [hb]
  simp
  omega

/-- Witness for C1 amended: the spec scenario itself; capacity 2, adding A, B,
C retains exactly the two most recent blocks, in order, with A evicted. -/
theorem add_block_bounded_fifo_witness :
    1 ≤ 2 ∧
    ([blockA, blockB, blockC].foldl BlockHistory.add_block
      (BlockHistory.new 2)).blocks = [blockB, blockC] := by
  have h := add_block_bounded_fifo 2 (by decide) [blockA, blockB, blockC]
  exact ⟨by decide, h.1.trans (by decide)⟩

/-- C1 counterexample: with max_size = 0 the history still grows to length 1,
because add_block evicts only one block before appending, so the length
exceeds max_size and the retained block is not the most recent 0 additions. -/
theorem add_block_exceeds_zero_max :
    ((BlockHistory.new 0).add_block blockA).max_size = 0 ∧
    ((BlockHistory.new 0).add_block blockA).blocks.length = 1 := by
  exact ⟨rfl, rfl⟩

/-- C3 counterexample: capacity 2; after adding A then B the cursor references
block B; adding C evicts A, shifting B to position 0, yet current_index stays
at 1, so the cursor now references the freshly added C even though B (the
block it logically pointed at) is still retained. -/
theorem add_block_stale_cursor :
    hist2.blocks.get? hist2.current_index = some blockB ∧
    hist3 = hist2.add_block blockC ∧
    blockB ∈ hist3.blocks ∧
    hist3.current_index = hist2.current_index ∧
    hist3.blocks.get? hist3.current_index = some blockC ∧
    blockC ≠ blockB := by
  refine ⟨rfl, rfl, by decide, rfl, rfl, by decide⟩

/-- C3 amended: a non-evicting add_block re-points the cursor at the newly
appended block (not at the block it referenced before); an evicting add_block
leaves current_index numerically unchanged, so the cursor ends up on the
successor of the block it referenced (or on the new block when it referenced
the newest position), never re-derived to follow the block it pointed at. -/
theorem add_block_cursor_behavior (h : BlockHistory) (b : Block)
    (hinv : h.current_index < h.blocks.length ∨
      (h.blocks = [] ∧ h.current_index = 0)) :
    (h.blocks.length < h.max_size →
      (h.add_block b).current_index = h.blocks.length ∧
      (h.add_block b).blocks.get? (h.add_block b).current_index = some b) ∧
    (h.max_size ≤ h.blocks.length →
      (h.add_block b).current_index = h.current_index ∧
      (h.add_block b).blocks.get? h.current_index =
        (if h.current_index + 1 < h.blocks.length
         then h.blocks.get? (h.current_index + 1) else some b)) := by
  constructor
  · intro hlt
    unfold BlockHistory.add_block
    rw [if_neg (by omega)]
    exact ⟨rfl, List.get?_concat_length h.blocks b⟩
  · intro hge
    unfold BlockHistory.add_block
    rw [if_pos (by omega)]
    refine ⟨rfl, ?_⟩
    rcases hinv with hci | ⟨hemp, hzero⟩
    · by_cases hsucc : h.current_index + 1 < h.blocks.length
      · rw [if_pos hsucc]
        have htail : h.blocks.tail = h.blocks.drop 1 := by
          cases h.blocks <;> rfl
        have hlt' : h.current_index < h.blocks.tail.length := by
          rw [htail]
          simp
          omega
        rw [List.get?_append hlt', htail, List.get?_drop]
        congr 1
        omega
      · rw [if_neg hsucc]
        have hlen1 : h.blocks.tail.length = h.blocks.length - 1 := by simp
        have hend : h.current_index = h.blocks.tail.length := by omega
        rw [hend, List.get?_concat_length]
    · rw [hemp, hzero]
      rfl

/-- Witness for C3 amended at the concrete evicting add of the scenario:
capacity 2, history [A, B] with cursor at 1; adding C keeps current_index = 1
and makes the cursor reference the new block C. -/
theorem add_block_cursor_behavior_witness :
    (hist2.add_block blockC).current_index = hist2.current_index ∧
    (hist2.add_block blockC).blocks.get? hist2.current_index = some blockC := by
  have h := (add_block_cursor_behavior hist2 blockC (Or.inl (by decide))).2 (by decide)
  refine ⟨h.1, ?_⟩
  have h2 := h.2
  rwa [if_neg (by decide)] at h2

/-- C4 counterexample: on an empty history the bound self.blocks.len() - 1 of
navigate_down underflows (usize), so the guard passes and each call increments
current_index: after two calls on a fresh empty history the cursor sits at 2,
far outside the clamped range of an empty history, although None was returned
both times. -/
theorem navigate_down_empty_underflow :
    (BlockHistory.new 2).blocks.length = 0 ∧
    (BlockHistory.new 2).current_index = 0 ∧
    usizeSub1 (BlockHistory.new 2).blocks.length = 2 ^ 64 - 1 ∧
    ((BlockHistory.new 2).navigate_down).1 = none ∧
    ((BlockHistory.new 2).navigate_down).2.current_index = 1 ∧
    (((BlockHistory.new 2).navigate_down).2.navigate_down).2.current_index = 2 := by
  refine ⟨rfl, rfl, by decide, by decide, by decide, by decide⟩

/-- C4 amended: with the cursor in bounds (every reachable non-empty state),
navigate_up and navigate_down move current_index by exactly one, clamped to
the valid range: each returns None at its boundary without moving, and
otherwise returns the (present) block at the new cursor; navigate_up on an
empty history with cursor 0 also returns None without moving.  The one
exception to the claim is navigate_down on an empty history, whose bound
computation underflows (see the counterexample). -/
theorem navigate_clamped (h : BlockHistory) (hlen : h.blocks.length < 2 ^ 64) :
    (h.blocks = [] → h.current_index = 0 → h.navigate_up = (none, h)) ∧
    (h.current_index < h.blocks.length →
      (h.current_index = 0 → h.navigate_up = (none, h)) ∧
      (0 < h.current_index →
        (h.navigate_up).2.current_index = h.current_index - 1 ∧
        (h.navigate_up).2.blocks = h.blocks ∧
        (h.navigate_up).1 = h.blocks.get? (h.current_index - 1) ∧
        ((h.navigate_up).1).isSome = true) ∧
      (h.current_index = h.blocks.length - 1 → h.navigate_down = (none, h)) ∧
      (h.current_index + 1 < h.blocks.length →
        (h.navigate_down).2.current_index = h.current_index + 1 ∧
        (h.navigate_down).2.blocks = h.blocks ∧
        (h.navigate_down).1 = h.blocks.get? (h.current_index + 1) ∧
        ((h.navigate_down).1).isSome = true)) := by
  constructor
  · intro hemp hzero
    unfold BlockHistory.navigate_up
    rw [if_neg (by omega)]
  · intro hci
    have hpos : 0 < h.blocks.length := by omega
    have hsub : usizeSub1 h.blocks.length = h.blocks.length - 1 := by
      unfold usizeSub1
      omega
    refine ⟨?_, ?_, ?_, ?_⟩
    · intro hzero
      unfold BlockHistory.navigate_up
      rw [if_neg (by omega)]
    · intro hup
      unfold BlockHistory.navigate_up
      rw [if_pos (by omega)]
      refine ⟨rfl, rfl, rfl, ?_⟩
      have : h.current_index - 1 < h.blocks.length := by omega
      simp [List.get?_eq_getElem?, List.getElem?_eq_getElem this]
    · intro hend
      unfold BlockHistory.navigate_down
      rw [hsub, if_neg (by omega)]
    · intro hdown
      unfold BlockHistory.navigate_down
      rw [hsub, if_pos (by omega)]
      refine ⟨rfl, rfl, rfl, ?_⟩
      simp [List.get?_eq_getElem?, List.getElem?_eq_getElem hdown]

/-- Witness for C4 amended at the concrete history [A, B] with cursor 1:
navigate_up returns block A at the new cursor 0, and navigate_down (cursor at
the last position) returns None and changes nothing. -/
theorem navigate_clamped_witness :
    (hist2.navigate_up).1 = some blockA ∧
    (hist2.navigate_up).2.current_index = 0 ∧
    hist2.navigate_down = (none, hist2) := by
  have h := (navigate_clamped hist2 (by decide)).2 (by decide)
  have hup := h.2.1 (by decide)
  refine ⟨hup.2.2.1.trans (by decide), hup.1, h.2.2.1 (by decide)⟩

/-- C10: for every capacity bound between 1 and the usize range, every history
reachable from a fresh one by add_block, navigate_up / navigate_down on
non-empty histories, and clear keeps its capacity bound and satisfies the
cursor invariant: the length never exceeds the bound, the cursor is 0 when the
history is empty and strictly below the length otherwise, so resolving the
cursor to a block never indexes out of range, even after an eviction. -/
theorem reachable_cursor_in_bounds (m : Nat) (hm : 1 ≤ m) (hm64 : m < 2 ^ 64)
    (h : BlockHistory) (hr : HistReachable m h) :
    h.max_size = m ∧ cursorInv h := by
  induction hr with
  | init =>
      exact ⟨rfl, by simp [BlockHistory.new, cursorInv]⟩
  | add b hr ih =>
      rename_i st
      obtain ⟨bl, ms, ci⟩ := st
      obtain ⟨hmax, hbound, hemp, hlt⟩ := ih
      dsimp only at hmax hbound hemp hlt ⊢
      unfold BlockHistory.add_block
      dsimp only
      by_cases hcase : bl.length ≥ ms
      · rw [if_pos hcase]
        unfold cursorInv
        dsimp only
        have htl : bl.tail.length = bl.length - 1 := by simp
        have hpos : 0 < bl.length := by omega
        have hci := hlt hpos
        simp only [List.length_append, List.length_cons, List.length_nil, htl]
        refine ⟨by omega, by omega, by omega⟩
      · rw [if_neg hcase]
        unfold cursorInv
        dsimp only
        simp only [List.length_append, List.length_cons, List.length_nil]
        refine ⟨by omega, by omega, by omega⟩
  | nav_up hr hne ih =>
      rename_i st
      obtain ⟨bl, ms, ci⟩ := st
      obtain ⟨hmax, hbound, hemp, hlt⟩ := ih
      dsimp only at hmax hbound hemp hlt hne ⊢
      have hpos : 0 < bl.length := List.length_pos.mpr hne
      have hci := hlt hpos
      unfold BlockHistory.navigate_up
      dsimp only
      by_cases hcase : ci > 0
      · rw [if_pos hcase]
        unfold cursorInv
        dsimp only
        refine ⟨hmax, hbound, by omega, by omega⟩
      · rw [if_neg hcase]
        exact ⟨hmax, hbound, hemp, hlt⟩
  | nav_down hr hne ih =>
      rename_i st
      obtain ⟨bl, ms, ci⟩ := st
      obtain ⟨hmax, hbound, hemp, hlt⟩ := ih
      dsimp only at hmax hbound hemp hlt hne ⊢
      have hpos : 0 < bl.length := List.length_pos.mpr hne
      have hci := hlt hpos
      have hsub : usizeSub1 bl.length = bl.length - 1 := by
        unfold usizeSub1
        omega
      unfold BlockHistory.navigate_down
      dsimp only
      rw [hsub]
      by_cases hcase : ci < bl.length - 1
      · rw [if_pos hcase]
        unfold cursorInv
        dsimp only
        refine ⟨hmax, hbound, by omega, by omega⟩
      · rw [if_neg hcase]
        exact ⟨hmax, hbound, hemp, hlt⟩
  | cleared hr ih =>
      rename_i st
      exact ⟨ih.1, by simp [BlockHistory.clear, cursorInv]⟩

/-- Witness for C10 at the concrete reachable history of the scenario
(capacity 2, blocks A, B, C added, one eviction). -/
theorem reachable_cursor_in_bounds_witness :
    hist3.max_size = 2 ∧ cursorInv hist3 := by
  have hr : HistReachable 2 hist3 :=
    HistReachable.add blockC (HistReachable.add blockB
      (HistReachable.add blockA HistReachable.init))
  exact reachable_cursor_in_bounds 2 (by decide) (by decide) hist3 hr

/-- Decoding a serialized unsigned integer recovers it. -/
theorem decodeNat_natCast (n : Nat) : decodeNat (Json.num (n : Int)) = Except.ok n := by
  simp [decodeNat, Int.not_lt.mpr (Int.natCast_nonneg n)]

/-- Decoding a serialized status recovers it. -/
theorem decodeStatus_encodeStatus (s : BlockStatus) :
    decodeStatus (encodeStatus s) = Except.ok s := by
  cases s <;> rfl

/-- Decoding a serialized output record recovers it. -/
theorem decodeOutput_encodeOutput (o : BlockOutput) :
    decodeOutput (encodeOutput o) = Except.ok o := by
  obtain ⟨stdout, stderr, ec⟩ := o
  cases ec <;> rfl

/-- Decoding a serialized metadata record recovers it. -/
theorem decodeMetadata_encodeMetadata (md : BlockMetadata) :
    decodeMetadata (encodeMetadata md) = Except.ok md := by
  obtain ⟨dm, ts, dir, gb, bm⟩ := md
  cases gb <;>
    simp [encodeMetadata, decodeMetadata, getField, decodeNat_natCast,
      decodeStr, decodeBool, decodeOptStr, encodeOptStr, List.find?, bind,
      Except.bind]

/-- Decoding a serialized block recovers it. -/
theorem decodeBlock_encodeBlock (b : Block) :
    decodeBlock (encodeBlock b) = Except.ok b := by
  obtain ⟨id, command, output, status, metadata⟩ := b
  simp [encodeBlock, decodeBlock, getField, decodeStr, List.find?,
    decodeOutput_encodeOutput, decodeStatus_encodeStatus,
    decodeMetadata_encodeMetadata, bind, Except.bind]

/-- C6: saving a list of blocks as JSON and loading the written content yields
exactly the original blocks: same ids, same values of every field and the same
order. -/
theorem save_load_roundtrip (bs : List Block) :
    BlockStorage.load_blocks (BlockStorage.save_as_json bs) = Except.ok bs := by
  unfold BlockStorage.load_blocks BlockStorage.save_as_json encodeBlocks decodeBlocks
  induction bs with
  | nil => rfl
  | cons b rest ih =>
      simp only [List.map_cons, List.mapM_cons, decodeBlock_encodeBlock, bind,
        Except.bind]
      simp only [List.map] at ih
      rw [ih]
      rfl
